import Mathlib

/-!
Verification of the entity-deduplication pipeline (modular_methods and the
MultiKE fusion script): a shallow embedding of the candidate selector
(`match_entities`), the literal adjudicator (`Levenshtein_filter` with its
`difflib.SequenceMatcher` ratio, acronym boost and literal-count threshold),
the hybrid/adaptive view fusion (`get_hybrid_vector`, `combine_embeddings`)
and the result assembler (`build_final_result` with its graph-literal
traversal), together with theorems settling the spec's claims about them.

Numeric values are modelled as exact rationals (reals for the adaptive
fusion, whose cosine similarity needs square roots); Python dicts are
modelled as insertion-ordered association lists; Python exceptions are
modelled with `Except`.
-/

set_option maxRecDepth 16000

namespace Dedup

/-! ## Candidate selector: `similarity_utils.match_entities`

`match_entities(sim_matrix, ids1, ids2, threshold, top_k)` builds a DataFrame
with rows `ids1` and columns `ids2`, and for each column takes the `top_k`
largest entries (`nlargest`: sort descending, take `top_k`) and keeps those
with similarity `>= threshold`. -/

/-- Insert a labelled score into a descending-sorted list (the order pandas
`nlargest` produces; tie order among equal scores is implementation-defined
in the spec and never observed by the claims). -/
def insertDesc (x : String × ℚ) : List (String × ℚ) → List (String × ℚ)
  | [] => [x]
  | y :: ys => if y.2 < x.2 then x :: y :: ys else y :: insertDesc x ys

/-- Sort a labelled-score list in descending score order. -/
def sortDesc : List (String × ℚ) → List (String × ℚ)
  | [] => []
  | x :: xs => insertDesc x (sortDesc xs)

/-- pandas `Series.nlargest(top_k)`: the `top_k` largest entries, scores
descending. -/
def nlargestEntries (topk : Nat) (l : List (String × ℚ)) : List (String × ℚ) :=
  (sortDesc l).take topk

/-- Column `j` of the similarity matrix (one cell per row of `sim`). -/
def colOf (sim : List (List ℚ)) (j : Nat) : List ℚ :=
  sim.map (fun row => row.getD j 0)

/-- The matches one target-graph column contributes: `nlargest(top_k)` of the
column, keeping entries with `sim >= threshold`, emitted as
`(phkg_entity, g2_entity, sim)`. -/
def colMatches (g2ent : String) (colPairs : List (String × ℚ))
    (threshold : ℚ) (topk : Nat) : List (String × String × ℚ) :=
  ((nlargestEntries topk colPairs).filter (fun p => threshold ≤ p.2)).map
    (fun p => (p.1, g2ent, p.2))

/-- The outer loop of `match_entities`: iterate the columns (`ids2`), with `j`
the current column position. -/
def matchCols (sim : List (List ℚ)) (ids1 : List String) (threshold : ℚ)
    (topk : Nat) : Nat → List String → List (String × String × ℚ)
  | _, [] => []
  | j, g2ent :: rest =>
      colMatches g2ent (ids1.zip (colOf sim j)) threshold topk ++
        matchCols sim ids1 threshold topk (j + 1) rest

/-- `similarity_utils.match_entities` (defaults `threshold=0.7`, `top_k=2`). -/
def match_entities (sim : List (List ℚ)) (ids1 ids2 : List String)
    (threshold : ℚ) (topk : Nat) : List (String × String × ℚ) :=
  matchCols sim ids1 threshold topk 0 ids2

theorem mem_insertDesc {a x : String × ℚ} {l : List (String × ℚ)}
    (h : a ∈ insertDesc x l) : a = x ∨ a ∈ l := by
  induction l with
  | nil => simp [insertDesc] at h; exact Or.inl h
  | cons y ys ih =>
      by_cases hc : y.2 < x.2
      · simpa [insertDesc, hc] using h
      · simp only [insertDesc, hc, if_false, List.mem_cons] at h
        rcases h with h | h
        · exact Or.inr (by simp [h])
        · rcases ih h with h | h
          · exact Or.inl h
          · exact Or.inr (List.mem_cons_of_mem _ h)

theorem mem_sortDesc {a : String × ℚ} {l : List (String × ℚ)}
    (h : a ∈ sortDesc l) : a ∈ l := by
  induction l with
  | nil => simp [sortDesc] at h
  | cons x xs ih =>
      rcases mem_insertDesc h with h | h
      · simp [h]
      · exact List.mem_cons_of_mem _ (ih h)

theorem length_colMatches_le (g2ent : String) (colPairs : List (String × ℚ))
    (threshold : ℚ) (topk : Nat) :
    (colMatches g2ent colPairs threshold topk).length ≤ topk := by
  calc (colMatches g2ent colPairs threshold topk).length
      = ((nlargestEntries topk colPairs).filter (fun p => threshold ≤ p.2)).length := by
        simp [colMatches]
    _ ≤ (nlargestEntries topk colPairs).length := List.length_filter_le _ _
    _ ≤ topk := by simp [nlargestEntries]

theorem mem_colMatches {m : String × String × ℚ} {g2ent : String}
    {colPairs : List (String × ℚ)} {threshold : ℚ} {topk : Nat}
    (h : m ∈ colMatches g2ent colPairs threshold topk) :
    m.2.1 = g2ent ∧ threshold ≤ m.2.2 ∧ m.1 ∈ colPairs.map Prod.fst := by
  simp only [colMatches, List.mem_map, List.mem_filter] at h
  obtain ⟨p, ⟨hp, hthr⟩, rfl⟩ := h
  have hp' : p ∈ colPairs :=
    mem_sortDesc (List.mem_of_mem_take (by simpa [nlargestEntries] using hp))
  exact ⟨rfl, by simp at hthr; exact hthr, List.mem_map_of_mem Prod.fst hp'⟩

theorem mem_matchCols {m : String × String × ℚ} {sim : List (List ℚ)}
    {ids1 : List String} {threshold : ℚ} {topk : Nat} {j : Nat}
    {ids2 : List String} (h : m ∈ matchCols sim ids1 threshold topk j ids2) :
    m.1 ∈ ids1 ∧ m.2.1 ∈ ids2 ∧ threshold ≤ m.2.2 := by
  induction ids2 generalizing j with
  | nil => simp [matchCols] at h
  | cons g2 rest ih =>
      simp only [matchCols, List.mem_append] at h
      rcases h with h | h
      · obtain ⟨hg, hthr, hmem⟩ := mem_colMatches h
        refine ⟨?_, by simp [hg], hthr⟩
        obtain ⟨p, hp, hfst⟩ := List.mem_map.1 hmem
        obtain ⟨h1, -⟩ := List.of_mem_zip hp
        exact hfst ▸ h1
      · obtain ⟨h1, h2, h3⟩ := ih h
        exact ⟨h1, List.mem_cons_of_mem _ h2, h3⟩

theorem filter_matchCols_eq_nil {sim : List (List ℚ)} {ids1 : List String}
    {threshold : ℚ} {topk : Nat} {j : Nat} {ids2 : List String} {t : String}
    (h : t ∉ ids2) :
    (matchCols sim ids1 threshold topk j ids2).filter (fun m => m.2.1 == t) = [] := by
  rw [List.filter_eq_nil_iff]
  intro m hm
  obtain ⟨-, h2, -⟩ := mem_matchCols hm
  simp only [beq_iff_eq]
  intro hEq
  exact h (hEq ▸ h2)

theorem length_filter_matchCols_le (sim : List (List ℚ)) (ids1 : List String)
    (threshold : ℚ) (topk : Nat) (t : String) :
    ∀ (j : Nat) (ids2 : List String), ids2.Nodup →
      ((matchCols sim ids1 threshold topk j ids2).filter
        (fun m => m.2.1 == t)).length ≤ topk := by
  intro j ids2
  induction ids2 generalizing j with
  | nil => simp [matchCols]
  | cons g2 rest ih =>
      intro h
      obtain ⟨hg2, hrest⟩ := List.nodup_cons.1 h
      simp only [matchCols, List.filter_append, List.length_append]
      by_cases ht : g2 = t
      · have hzero :
            (matchCols sim ids1 threshold topk (j + 1) rest).filter
              (fun m => m.2.1 == t) = [] :=
          filter_matchCols_eq_nil (ht ▸ hg2)
        rw [hzero]
        simp only [List.length_nil, Nat.add_zero]
        exact le_trans (List.length_filter_le _ _) (length_colMatches_le _ _ _ _)
      · have hzero :
            (colMatches g2 (ids1.zip (colOf sim j)) threshold topk).filter
              (fun m => m.2.1 == t) = [] := by
          rw [List.filter_eq_nil_iff]
          intro m hm
          have := (mem_colMatches hm).1
          simp only [beq_iff_eq]
          intro hEq
          exact ht (this ▸ hEq)
        rw [hzero]
        simpa using ih (j + 1) hrest

theorem matchCols_nil_sim (threshold : ℚ) (topk : Nat) :
    ∀ (j : Nat) (ids2 : List String),
      matchCols [] [] threshold topk j ids2 = [] := by
  intro j ids2
  induction ids2 generalizing j with
  | nil => rfl
  | cons g2 rest ih =>
      simp [matchCols, colMatches, nlargestEntries, sortDesc, ih (j + 1)]

/-- C5: every target column contributes at most `top_k` candidates, every
emitted candidate scores at least `threshold`, an empty matrix yields an
empty candidate list, and one source entity can be a candidate for two
distinct targets (witnessed by a concrete 1×2 matrix). -/
theorem match_entities_topk_threshold (sim : List (List ℚ))
    (ids1 ids2 : List String) (threshold : ℚ) (topk : Nat) :
    (∀ t : String, ids2.Nodup →
        ((match_entities sim ids1 ids2 threshold topk).filter
          (fun m => m.2.1 == t)).length ≤ topk)
    ∧ (∀ m ∈ match_entities sim ids1 ids2 threshold topk, threshold ≤ m.2.2)
    ∧ match_entities sim ids1 [] threshold topk = []
    ∧ match_entities [] [] ids2 threshold topk = []
    ∧ match_entities [[1, 1]] ["s"] ["t1", "t2"] (1/2) 2 =
        [("s", "t1", 1), ("s", "t2", 1)] := by
  refine ⟨?_, ?_, rfl, matchCols_nil_sim threshold topk 0 ids2,
    by with_unfolding_all rfl⟩
  · intro t h
    exact length_filter_matchCols_le sim ids1 threshold topk t 0 ids2 h
  · intro m hm
    exact (mem_matchCols hm).2.2

/-- Witness for C5 at a concrete 1×2 matrix with `threshold = 1/2`,
`top_k = 2`. -/
theorem match_entities_topk_threshold_witness :
    ((match_entities [[1, 1]] ["s"] ["t1", "t2"] (1/2) 2).filter
      (fun m => m.2.1 == "t1")).length ≤ 2
    ∧ (1 : ℚ)/2 ≤ (("s", "t1", (1 : ℚ)) : String × String × ℚ).2.2 := by
  have h := match_entities_topk_threshold [[1, 1]] ["s"] ["t1", "t2"] (1/2) 2
  exact ⟨h.1 "t1" (by decide),
    h.2.1 ("s", "t1", 1) (of_decide_eq_true (by with_unfolding_all rfl))⟩

/-- C8 (amended): whenever the source-graph and target-graph identifier sets
are disjoint, no candidate matches an entity against itself. Nothing in
`match_entities` excludes a shared identifier, so disjointness is the
condition under which the spec's no-self-match invariant holds. -/
theorem match_entities_no_self_match_of_disjoint (sim : List (List ℚ))
    (ids1 ids2 : List String) (threshold : ℚ) (topk : Nat)
    (hdisj : ∀ a ∈ ids1, a ∉ ids2) :
    ∀ m ∈ match_entities sim ids1 ids2 threshold topk, m.1 ≠ m.2.1 := by
  intro m hm hEq
  obtain ⟨h1, h2, -⟩ := mem_matchCols hm
  exact hdisj m.1 h1 (hEq ▸ h2)

/-- Witness for the amended C8 on a concrete matrix with disjoint identifier
sets. -/
theorem match_entities_no_self_match_witness :
    (("a", "b", (1 : ℚ)) : String × String × ℚ).1 ≠
      (("a", "b", (1 : ℚ)) : String × String × ℚ).2.1 :=
  match_entities_no_self_match_of_disjoint [[1]] ["a"] ["b"] (1/2) 2
    (by decide) ("a", "b", 1) (of_decide_eq_true (by with_unfolding_all rfl))

/-! ## Literal adjudicator: `similarity_utils`

`normalized_levenshtein(a, b)` is `difflib.SequenceMatcher(None, a, b).ratio()`:
`2*M/T` where `M` is the total size of the matching blocks found by the
Ratcliff–Obershelp recursion and `T = len(a) + len(b)` (ratio `1.0` when both
strings are empty). No junk heuristic applies (autojunk only activates for
strings of length ≥ 200, far beyond any literal compared here). -/

/-- Length of the longest common prefix of two character lists. -/
def commonPrefixLen : List Char → List Char → Nat
  | c :: cs, d :: ds => if c = d then commonPrefixLen cs ds + 1 else 0
  | _, _ => 0

/-- One candidate starting position for `find_longest_match`: extend a match
at `(i, j)` inside the windows `a[·:ahi]`, `b[·:bhi]` and keep it if strictly
longer than the best so far (so the earliest maximal `(i, j)` wins, as in
difflib). -/
def flmStep (a b : List Char) (ahi bhi : Nat) (best : Nat × Nat × Nat)
    (ij : Nat × Nat) : Nat × Nat × Nat :=
  let k := commonPrefixLen ((a.take ahi).drop ij.1) ((b.take bhi).drop ij.2)
  if best.2.2 < k then (ij.1, ij.2, k) else best

/-- `SequenceMatcher.find_longest_match` on the windows `a[alo:ahi]`,
`b[blo:bhi]`: the longest matching block `(i, j, size)`, ties resolved to the
smallest `i`, then the smallest `j`. -/
def findLongestMatch (a b : List Char) (alo ahi blo bhi : Nat) :
    Nat × Nat × Nat :=
  (((List.range' alo (ahi - alo)).flatMap
      (fun i => (List.range' blo (bhi - blo)).map (fun j => (i, j)))).foldl
    (flmStep a b ahi bhi) (alo, blo, 0))

/-- The Ratcliff–Obershelp recursion of `get_matching_blocks`: find the
longest matching block of the current windows and recurse on each side. The
fuel only bounds the recursion depth; each level shrinks the total window
size by at least 2, so the top-level fuel in `matchingBlocks` never runs
out. -/
def matchingBlocksAux (a b : List Char) :
    Nat → Nat → Nat → Nat → Nat → List (Nat × Nat × Nat)
  | 0, _, _, _, _ => []
  | fuel + 1, alo, ahi, blo, bhi =>
      let r := findLongestMatch a b alo ahi blo bhi
      if r.2.2 ≠ 0 then
        matchingBlocksAux a b fuel alo r.1 blo r.2.1 ++ [r] ++
          matchingBlocksAux a b fuel (r.1 + r.2.2) ahi (r.2.1 + r.2.2) bhi
      else []

/-- `SequenceMatcher.get_matching_blocks` without the final zero-length
terminator and adjacent-block merge, neither of which changes the total
matched size that `ratio` consumes. -/
def matchingBlocks (a b : List Char) : List (Nat × Nat × Nat) :=
  matchingBlocksAux a b (a.length + b.length + 1) 0 a.length 0 b.length

/-- Total number of matched characters (`sum(size for all matching blocks)`). -/
def totalMatchedSize (a b : List Char) : Nat :=
  ((matchingBlocks a b).map (fun r => r.2.2)).sum

/-- `SequenceMatcher.ratio()`: `2*M / (len(a)+len(b))`, and `1.0` when both
strings are empty. -/
def ratioOf (a b : List Char) : ℚ :=
  if a.length + b.length = 0 then 1
  else 2 * (totalMatchedSize a b : ℚ) / ((a.length : ℚ) + (b.length : ℚ))

/-- `similarity_utils.normalized_levenshtein` (despite its name, the difflib
`SequenceMatcher` ratio). -/
def normalized_levenshtein (s1 s2 : String) : ℚ :=
  ratioOf s1.data s2.data

/-- A `\w` regex word character (ASCII view: letters, digits, underscore). -/
def isWordChar (c : Char) : Bool :=
  c.isAlphanum || c == '_'

/-- The characters matched by `re.findall(r'\b\w', s)`: each word character
preceded by a non-word character (or the start of the string). -/
def acronymChars : List Char → Bool → List Char
  | [], _ => []
  | c :: cs, prevWord =>
      if isWordChar c then
        if prevWord then acronymChars cs true else c :: acronymChars cs true
      else acronymChars cs false

/-- `similarity_utils.get_acronym`: first character of each word, joined and
uppercased. -/
def get_acronym (s : String) : String :=
  String.mk ((acronymChars s.data false).map Char.toUpper)

/-- Python `s.replace(" ", "").upper()`. -/
def stripSpacesUpper (s : String) : String :=
  String.mk ((s.data.filter (fun c => c != ' ')).map Char.toUpper)

/-- `similarity_utils.literal_based_threshold`: the per-count adjudication
bar 1 → 0.4, 2 → 0.55, 3 → 0.7, 4 → 0.8, 5 → 0.85, defaulting to `0.85`
for any other count. -/
def literal_based_threshold (n : Nat) : ℚ :=
  if n = 1 then 4/10
  else if n = 2 then 55/100
  else if n = 3 then 7/10
  else if n = 4 then 8/10
  else if n = 5 then 85/100
  else 85/100

/-- The per-predicate similarity computed inside `Levenshtein_filter`:
lowercase both values, take the `normalized_levenshtein` ratio and raise it
to at least `acronym_boost` when either value's acronym equals the other
value stripped of spaces and uppercased. -/
def predSimilarity (raw1 raw2 : String) (acronymBoost : ℚ) : ℚ :=
  let val1 := raw1.toLower
  let val2 := raw2.toLower
  let sim := normalized_levenshtein val1 val2
  if get_acronym val1 == stripSpacesUpper val2
      || get_acronym val2 == stripSpacesUpper val1 then
    max sim acronymBoost
  else sim

/-- `set(preds1.keys()) & set(preds2.keys())` for dict-like association
lists (each key counted once). -/
def commonPredsOf (p1 p2 : List (String × String)) : List String :=
  ((p1.map Prod.fst).dedup).filter (fun k => (p2.map Prod.fst).contains k)

/-- The average of the per-predicate similarities of the shared predicates
(`sum(sim_scores)/len(sim_scores) if sim_scores else 0`). -/
def avgSimOf (preds1 preds2 : List (String × String)) (common : List String)
    (acronymBoost : ℚ) : ℚ :=
  let simScores := common.map (fun p =>
    predSimilarity ((preds1.lookup p).getD "") ((preds2.lookup p).getD "")
      acronymBoost)
  if simScores.isEmpty then 0 else simScores.sum / (simScores.length : ℚ)

/-- `similarity_utils.Levenshtein_filter` (source defaults: `filter=True`,
`acronym_boost=0.95`). A candidate with no shared predicates is skipped
outright; otherwise a pass/fail record is appended, where with
`filterFlag = true` (the source's `filter` parameter) fail records are kept
only when fewer than 3 predicates are shared. -/
def Levenshtein_filter (ms : List (String × String × ℚ))
    (literals1 literals2 : List (String × List (String × String)))
    (filterFlag : Bool) (acronymBoost : ℚ) :
    List (String × String × ℚ × ℚ × String) :=
  match ms with
  | [] => []
  | (ent1, ent2, score) :: rest =>
      let tailRes := Levenshtein_filter rest literals1 literals2 filterFlag
        acronymBoost
      let preds1 := (literals1.lookup ent1).getD []
      let preds2 := (literals2.lookup ent2).getD []
      let common := commonPredsOf preds1 preds2
      if common.isEmpty then tailRes
      else
        let avgSim := avgSimOf preds1 preds2 common acronymBoost
        let n := common.length
        let threshold := literal_based_threshold n
        if filterFlag then
          if threshold ≤ avgSim then
            (ent1, ent2, score, avgSim, "pass") :: tailRes
          else if avgSim < threshold ∧ n < 3 then
            (ent1, ent2, score, avgSim, "fail") :: tailRes
          else tailRes
        else
          if threshold ≤ avgSim then
            (ent1, ent2, score, avgSim, "pass") :: tailRes
          else
            (ent1, ent2, score, avgSim, "fail") :: tailRes

/-- Number of predicates shared by the literal maps of `e1` and `e2`. -/
def sharedPredCount
    (literals1 literals2 : List (String × List (String × String)))
    (e1 e2 : String) : Nat :=
  (commonPredsOf ((literals1.lookup e1).getD [])
    ((literals2.lookup e2).getD [])).length

/-- C6: a candidate pair whose entities share zero literal-map predicates is
excluded from the adjudicated output entirely: no record for that pair,
neither pass nor fail, appears in `Levenshtein_filter`'s result (under either
fail-retention flag). -/
theorem Levenshtein_filter_drops_pairs_with_no_shared_preds
    (ms : List (String × String × ℚ))
    (literals1 literals2 : List (String × List (String × String)))
    (filterFlag : Bool) (acronymBoost : ℚ) (e1 e2 : String)
    (h : commonPredsOf ((literals1.lookup e1).getD [])
      ((literals2.lookup e2).getD []) = []) :
    (Levenshtein_filter ms literals1 literals2 filterFlag acronymBoost).filter
      (fun r => r.1 == e1 && r.2.1 == e2) = [] := by
  induction ms with
  | nil => rfl
  | cons m rest ih =>
      obtain ⟨ent1, ent2, score⟩ := m
      by_cases hc : (commonPredsOf ((literals1.lookup ent1).getD [])
          ((literals2.lookup ent2).getD [])).isEmpty
      · simp only [Levenshtein_filter, hc, if_true]
        exact ih
      · have hne : ¬(ent1 = e1 ∧ ent2 = e2) := by
          rintro ⟨rfl, rfl⟩
          rw [h] at hc
          exact hc List.isEmpty_nil
        have hfilt : ∀ (q : ℚ) (s : String),
            (((ent1, ent2, score, q, s) :
                String × String × ℚ × ℚ × String) :: Levenshtein_filter rest
                  literals1 literals2 filterFlag acronymBoost).filter
              (fun r => r.1 == e1 && r.2.1 == e2) =
            (Levenshtein_filter rest literals1 literals2 filterFlag
                acronymBoost).filter (fun r => r.1 == e1 && r.2.1 == e2) := by
          intro q s
          rw [List.filter_cons_of_neg, ih]
          simp only [Bool.and_eq_true, beq_iff_eq]
          exact fun hczz => hne ⟨hczz.1, hczz.2⟩
        simp only [Levenshtein_filter, hc, if_false]
        split_ifs with h1 h2 h3 h4
        all_goals first
          | exact ih
          | exact (hfilt _ _).trans ih

/-- Witness for C6: a concrete candidate pair with disjoint predicate keys
leaves no trace in the adjudicated output. -/
theorem Levenshtein_filter_drops_pairs_witness :
    (Levenshtein_filter [("a", "b", 1)] [("a", [("p", "x")])]
        [("b", [("q", "x")])] true (95/100)).filter
      (fun r => r.1 == "a" && r.2.1 == "b") = [] :=
  Levenshtein_filter_drops_pairs_with_no_shared_preds [("a", "b", 1)]
    [("a", [("p", "x")])] [("b", [("q", "x")])] true (95/100) "a" "b"
    (by with_unfolding_all rfl)

/-- C7: for the values "International Business Machines" and "IBM" the
acronym of the first (first character of each word, uppercased) equals the
second stripped of spaces and uppercased, so the per-predicate similarity
computed by the adjudicator with the default boost 0.95 is at least 0.95. -/
theorem predSimilarity_IBM_acronym_boost :
    get_acronym ("International Business Machines".toLower) =
        stripSpacesUpper ("IBM".toLower)
    ∧ (95 : ℚ)/100 ≤
        predSimilarity "International Business Machines" "IBM" (95/100) := by
  constructor
  · with_unfolding_all rfl
  · have hEq : predSimilarity "International Business Machines" "IBM"
        (95/100) =
        max (normalized_levenshtein "international business machines" "ibm")
          (95/100) := by
      with_unfolding_all rfl
    rw [hEq]
    exact le_max_right _ _

/-- C3 counterexample: under the adjudicator's default configuration
(`filter=True`, as passed by `deduplicate_graphs`), a candidate pair sharing
three predicates whose values are entirely dissimilar (average literal
similarity 0, below the 3-predicate bar 0.7) is dropped outright — no fail
record is kept, contradicting "both pass and fail records are kept by
default, regardless of the number of shared predicates". -/
theorem Levenshtein_filter_default_drops_weak_fail :
    Levenshtein_filter [("a", "b", 1)]
      [("a", [("p1", "x"), ("p2", "x"), ("p3", "x")])]
      [("b", [("p1", "y"), ("p2", "y"), ("p3", "y")])] true (95/100) = [] := by
  with_unfolding_all rfl

/-- C3 (amended): the default configuration keeps every pass record but keeps
a fail record only when the pair shares fewer than 3 predicates; the
keep-everything behaviour is exactly the `filter=False` variant. -/
theorem Levenshtein_filter_default_policy
    (ms : List (String × String × ℚ))
    (literals1 literals2 : List (String × List (String × String)))
    (acronymBoost : ℚ) :
    Levenshtein_filter ms literals1 literals2 true acronymBoost =
      (Levenshtein_filter ms literals1 literals2 false acronymBoost).filter
        (fun r => r.2.2.2.2 == "pass"
          || decide (sharedPredCount literals1 literals2 r.1 r.2.1 < 3)) := by
  induction ms with
  | nil => rfl
  | cons m rest ih =>
      obtain ⟨e1, e2, s⟩ := m
      by_cases hc : (commonPredsOf ((literals1.lookup e1).getD [])
          ((literals2.lookup e2).getD [])).isEmpty
      · simp only [Levenshtein_filter, hc, if_true]
        exact ih
      · by_cases hpass : literal_based_threshold
            (commonPredsOf ((literals1.lookup e1).getD [])
              ((literals2.lookup e2).getD [])).length ≤
            avgSimOf ((literals1.lookup e1).getD [])
              ((literals2.lookup e2).getD [])
              (commonPredsOf ((literals1.lookup e1).getD [])
                ((literals2.lookup e2).getD [])) acronymBoost
        · simp only [Levenshtein_filter, hc, hpass, Bool.false_eq_true,
            if_true, if_false]
          rw [List.filter_cons_of_pos, ih]
          simp
        · by_cases hn : (commonPredsOf ((literals1.lookup e1).getD [])
              ((literals2.lookup e2).getD [])).length < 3
          · simp only [Levenshtein_filter, hc, hpass, lt_of_not_le hpass, hn,
              and_self, Bool.false_eq_true, if_true, if_false]
            rw [List.filter_cons_of_pos, ih]
            simp [sharedPredCount, hn]
          · simp only [Levenshtein_filter, hc, hpass, hn, and_false,
              Bool.false_eq_true, if_true, if_false]
            rw [List.filter_cons_of_neg, ih]
            simp [sharedPredCount, hn]

/-! ## Fixed-weight hybrid fusion: `embedding_utils.get_hybrid_vector` -/

/-- `np.zeros(n)`. -/
def zerosVec (n : Nat) : List ℚ :=
  List.replicate n 0

/-- numpy scalar–vector product. -/
def scaleVec (a : ℚ) (v : List ℚ) : List ℚ :=
  v.map (fun x => a * x)

/-- numpy elementwise vector addition (operands share one dimension in every
call site; `zipWith` realises that shape). -/
def addVec (v w : List ℚ) : List ℚ :=
  List.zipWith (· + ·) v w

/-- `embedding_utils.get_hybrid_vector`:
`alpha * text_vec + (1 - alpha) * graph_vec`, where the graph vector falls
back to `np.zeros(text_dim)` when the entity has no graph embedding (source
defaults: `alpha=0.5`, `text_dim=384`; the `.flatten()` calls are identities
on 1-d vectors). -/
def get_hybrid_vector (entity : String) (textVector : List ℚ)
    (graphEmbeddings : List (String × List ℚ)) (alpha : ℚ)
    (textDim : Nat) : List ℚ :=
  let graphVec := (graphEmbeddings.lookup entity).getD (zerosVec textDim)
  addVec (scaleVec alpha textVector) (scaleVec (1 - alpha) graphVec)

theorem scaleVec_one (v : List ℚ) : scaleVec 1 v = v := by
  simp [scaleVec]

theorem scaleVec_zero (v : List ℚ) : scaleVec 0 v = zerosVec v.length := by
  simp [scaleVec, zerosVec, List.map_const']

theorem scaleVec_zerosVec (a : ℚ) (n : Nat) :
    scaleVec a (zerosVec n) = zerosVec n := by
  simp [scaleVec, zerosVec]

theorem addVec_zerosVec (v : List ℚ) (n : Nat) (h : v.length = n) :
    addVec v (zerosVec n) = v := by
  subst h
  induction v with
  | nil => rfl
  | cons x xs ih =>
      simp only [addVec, zerosVec, List.length_cons, List.replicate_succ,
        List.zipWith_cons_cons, add_zero]
      exact congrArg (List.cons x) ih

theorem zerosVec_addVec (v : List ℚ) (n : Nat) (h : v.length = n) :
    addVec (zerosVec n) v = v := by
  subst h
  induction v with
  | nil => rfl
  | cons x xs ih =>
      simp only [addVec, zerosVec, List.length_cons, List.replicate_succ,
        List.zipWith_cons_cons, zero_add]
      exact congrArg (List.cons x) ih

/-- C9: fixed-mode hybrid fusion is exactly
`alpha * text + (1 - alpha) * relation`, elementwise; an entity with no
relation-view vector gets the zero vector of the configured dimension (the
result then being `alpha * text`), not an error; `alpha = 1` yields the pure
text vector and `alpha = 0` the pure relation vector. -/
theorem get_hybrid_vector_spec (entity : String) (textVector : List ℚ)
    (graphEmbeddings : List (String × List ℚ)) (alpha : ℚ) (textDim : Nat) :
    (∀ g, graphEmbeddings.lookup entity = some g →
        get_hybrid_vector entity textVector graphEmbeddings alpha textDim =
          List.zipWith (fun t r => alpha * t + (1 - alpha) * r) textVector g)
    ∧ (graphEmbeddings.lookup entity = none → textVector.length = textDim →
        get_hybrid_vector entity textVector graphEmbeddings alpha textDim =
          scaleVec alpha textVector)
    ∧ (((graphEmbeddings.lookup entity).getD (zerosVec textDim)).length =
          textVector.length →
        get_hybrid_vector entity textVector graphEmbeddings 1 textDim =
          textVector)
    ∧ (((graphEmbeddings.lookup entity).getD (zerosVec textDim)).length =
          textVector.length →
        get_hybrid_vector entity textVector graphEmbeddings 0 textDim =
          (graphEmbeddings.lookup entity).getD (zerosVec textDim)) := by
  refine ⟨?_, ?_, ?_, ?_⟩
  · intro g hg
    simp only [get_hybrid_vector, hg, Option.getD_some, addVec, scaleVec]
    rw [List.zipWith_map]
  · intro hg hlen
    simp only [get_hybrid_vector, hg, Option.getD_none]
    rw [scaleVec_zerosVec]
    exact addVec_zerosVec _ _ (by simp [scaleVec, hlen])
  · intro hlen
    simp only [get_hybrid_vector]
    rw [scaleVec_one, show (1 : ℚ) - 1 = 0 from by norm_num, scaleVec_zero]
    exact addVec_zerosVec _ _ (by rw [hlen])
  · intro hlen
    simp only [get_hybrid_vector]
    rw [show (1 : ℚ) - 0 = 1 from by norm_num, scaleVec_one, scaleVec_zero]
    exact zerosVec_addVec _ _ (by rw [hlen])

/-- Witness for C9 at a concrete entity with a present relation vector and a
concrete missing entity. -/
theorem get_hybrid_vector_spec_witness :
    get_hybrid_vector "e" [1, 3] [("e", [2, 4])] (1/2) 2 =
        List.zipWith (fun t r => (1 : ℚ)/2 * t + (1 - 1/2) * r) [1, 3] [2, 4]
    ∧ get_hybrid_vector "missing" [1, 3] [("e", [2, 4])] (1/2) 2 =
        scaleVec (1/2) [1, 3] :=
  ⟨(get_hybrid_vector_spec "e" [1, 3] [("e", [2, 4])] (1/2) 2).1 [2, 4]
      (by with_unfolding_all rfl),
    (get_hybrid_vector_spec "missing" [1, 3] [("e", [2, 4])] (1/2) 2).2.1
      (by with_unfolding_all rfl) (by with_unfolding_all rfl)⟩

/-! ## Adaptive multi-view fusion: `MultiKE_node2Vec.combine_embeddings`

View vectors are real-valued here because sklearn's cosine similarity
divides by Euclidean norms (square roots). A zero vector gets cosine
similarity 0 in sklearn (zero norms are replaced by 1 before dividing, and
the dot product is then 0); in the embedding the numerator is 0 and Lean's
division by zero returns 0 as well, so the two agree. -/

/-- Dot product of two real vectors. -/
noncomputable def dotR (v w : List ℝ) : ℝ :=
  (List.zipWith (· * ·) v w).sum

/-- Elementwise sum of two real vectors. -/
noncomputable def addR (v w : List ℝ) : List ℝ :=
  List.zipWith (· + ·) v w

/-- Scalar multiple of a real vector. -/
noncomputable def scaleR (a : ℝ) (v : List ℝ) : List ℝ :=
  v.map (fun x => a * x)

/-- `sum(views) / len(views)` for the three views. -/
noncomputable def meanVec (v1 v2 v3 : List ℝ) : List ℝ :=
  (addR (addR v1 v2) v3).map (fun x => x / 3)

/-- sklearn `cosine_similarity` of two single vectors. -/
noncomputable def cosineSim (v w : List ℝ) : ℝ :=
  dotR v w / (Real.sqrt (dotR v v) * Real.sqrt (dotR w w))

/-- The three per-view similarities to the mean computed by
`combine_embeddings`. -/
noncomputable def viewSims (nameEmb relEmb attrEmb : List ℝ) : ℝ × ℝ × ℝ :=
  let avg := meanVec nameEmb relEmb attrEmb
  (cosineSim nameEmb avg, cosineSim relEmb avg, cosineSim attrEmb avg)

/-- The weights of `combine_embeddings`: the view similarities normalized by
their sum when that sum is positive, else `1/3` each
(`np.ones_like(weights) / len(views)`). -/
noncomputable def combine_weights (nameEmb relEmb attrEmb : List ℝ) :
    ℝ × ℝ × ℝ :=
  let s := viewSims nameEmb relEmb attrEmb
  if s.1 + s.2.1 + s.2.2 > 0 then
    (s.1 / (s.1 + s.2.1 + s.2.2), s.2.1 / (s.1 + s.2.1 + s.2.2),
      s.2.2 / (s.1 + s.2.1 + s.2.2))
  else (1/3, 1/3, 1/3)

/-- `MultiKE_node2Vec.combine_embeddings`: the weighted sum
`sum(w * v for w, v in zip(weights, views))`. -/
noncomputable def combine_embeddings (nameEmb relEmb attrEmb : List ℝ) :
    List ℝ :=
  let w := combine_weights nameEmb relEmb attrEmb
  addR (addR (scaleR w.1 nameEmb) (scaleR w.2.1 relEmb))
    (scaleR w.2.2 attrEmb)

/-- C4 (amended): the three adaptive weights always sum to 1; they are
exactly `1/3` each whenever the *sum* of the three view similarities is
non-positive (not merely when every similarity is non-positive), and they
are the similarities normalized by their sum — with the fused vector the
corresponding weighted sum of the views — exactly when that sum is
positive. -/
theorem combine_weights_spec (nameEmb relEmb attrEmb : List ℝ) :
    ((combine_weights nameEmb relEmb attrEmb).1 +
        (combine_weights nameEmb relEmb attrEmb).2.1 +
        (combine_weights nameEmb relEmb attrEmb).2.2 = 1)
    ∧ ((viewSims nameEmb relEmb attrEmb).1 +
          (viewSims nameEmb relEmb attrEmb).2.1 +
          (viewSims nameEmb relEmb attrEmb).2.2 ≤ 0 →
        combine_weights nameEmb relEmb attrEmb = (1/3, 1/3, 1/3))
    ∧ (0 < (viewSims nameEmb relEmb attrEmb).1 +
          (viewSims nameEmb relEmb attrEmb).2.1 +
          (viewSims nameEmb relEmb attrEmb).2.2 →
        combine_weights nameEmb relEmb attrEmb =
          ((viewSims nameEmb relEmb attrEmb).1 /
              ((viewSims nameEmb relEmb attrEmb).1 +
                (viewSims nameEmb relEmb attrEmb).2.1 +
                (viewSims nameEmb relEmb attrEmb).2.2),
            (viewSims nameEmb relEmb attrEmb).2.1 /
              ((viewSims nameEmb relEmb attrEmb).1 +
                (viewSims nameEmb relEmb attrEmb).2.1 +
                (viewSims nameEmb relEmb attrEmb).2.2),
            (viewSims nameEmb relEmb attrEmb).2.2 /
              ((viewSims nameEmb relEmb attrEmb).1 +
                (viewSims nameEmb relEmb attrEmb).2.1 +
                (viewSims nameEmb relEmb attrEmb).2.2)))
    ∧ combine_embeddings nameEmb relEmb attrEmb =
        addR (addR
          (scaleR (combine_weights nameEmb relEmb attrEmb).1 nameEmb)
          (scaleR (combine_weights nameEmb relEmb attrEmb).2.1 relEmb))
          (scaleR (combine_weights nameEmb relEmb attrEmb).2.2 attrEmb) := by
  refine ⟨?_, ?_, ?_, rfl⟩
  · by_cases h : 0 < (viewSims nameEmb relEmb attrEmb).1 +
        (viewSims nameEmb relEmb attrEmb).2.1 +
        (viewSims nameEmb relEmb attrEmb).2.2
    · simp only [combine_weights, gt_iff_lt, h, if_true]
      rw [div_add_div_same, div_add_div_same]
      exact div_self (ne_of_gt h)
    · simp only [combine_weights, gt_iff_lt, h, if_false]
      norm_num
  · intro h
    have h' : ¬(0 < (viewSims nameEmb relEmb attrEmb).1 +
        (viewSims nameEmb relEmb attrEmb).2.1 +
        (viewSims nameEmb relEmb attrEmb).2.2) := not_lt.2 h
    simp only [combine_weights, gt_iff_lt, h', if_false]
  · intro h
    simp only [combine_weights, gt_iff_lt, h, if_true]

/-- Witness for the amended C4 at three identical one-dimensional views
(all similarities 1, so the positive branch applies). -/
theorem combine_weights_spec_witness :
    combine_weights [(1 : ℝ)] [1] [1] =
      ((viewSims [(1 : ℝ)] [1] [1]).1 /
          ((viewSims [(1 : ℝ)] [1] [1]).1 + (viewSims [(1 : ℝ)] [1] [1]).2.1 +
            (viewSims [(1 : ℝ)] [1] [1]).2.2),
        (viewSims [(1 : ℝ)] [1] [1]).2.1 /
          ((viewSims [(1 : ℝ)] [1] [1]).1 + (viewSims [(1 : ℝ)] [1] [1]).2.1 +
            (viewSims [(1 : ℝ)] [1] [1]).2.2),
        (viewSims [(1 : ℝ)] [1] [1]).2.2 /
          ((viewSims [(1 : ℝ)] [1] [1]).1 + (viewSims [(1 : ℝ)] [1] [1]).2.1 +
            (viewSims [(1 : ℝ)] [1] [1]).2.2)) := by
  have hmean : meanVec [(1 : ℝ)] [1] [1] = [1] := by
    norm_num [meanVec, addR]
  have hcos : cosineSim [(1 : ℝ)] [1] = 1 := by
    simp [cosineSim, dotR, Real.sqrt_one]
  have hsims : viewSims [(1 : ℝ)] [1] [1] = (1, 1, 1) := by
    simp [viewSims, hmean, hcos]
  exact (combine_weights_spec [1] [1] [1]).2.2.1 (by rw [hsims]; norm_num)

/-- C4 counterexample: for the one-dimensional views `[1]`, `[-2/5]`,
`[-2/5]` the similarities to the mean are `(1, -1, -1)`: not all are ≤ 0,
yet their sum is `-1`, so the code takes the equal-weights branch instead of
normalizing, and the claimed normalized weights `(-1, 1, 1)` are not what the
code computes. -/
theorem combine_weights_claim_counterexample :
    (0 : ℝ) < (viewSims [1] [-2/5] [-2/5]).1
    ∧ combine_weights [1] [-2/5] [-2/5] = (1/3, 1/3, 1/3)
    ∧ combine_weights [1] [-2/5] [-2/5] ≠
        ((viewSims [1] [-2/5] [-2/5]).1 /
            ((viewSims [1] [-2/5] [-2/5]).1 +
              (viewSims [1] [-2/5] [-2/5]).2.1 +
              (viewSims [1] [-2/5] [-2/5]).2.2),
          (viewSims [1] [-2/5] [-2/5]).2.1 /
            ((viewSims [1] [-2/5] [-2/5]).1 +
              (viewSims [1] [-2/5] [-2/5]).2.1 +
              (viewSims [1] [-2/5] [-2/5]).2.2),
          (viewSims [1] [-2/5] [-2/5]).2.2 /
            ((viewSims [1] [-2/5] [-2/5]).1 +
              (viewSims [1] [-2/5] [-2/5]).2.1 +
              (viewSims [1] [-2/5] [-2/5]).2.2)) := by
  have hmean : meanVec [(1 : ℝ)] [-2/5] [-2/5] = [1/15] := by
    norm_num [meanVec, addR]
  have hsqrt225 : Real.sqrt (1/15 * (1/15) + 0) = 1/15 := by
    rw [show (1/15 * (1/15) + 0 : ℝ) = (1/15)^2 by norm_num]
    exact Real.sqrt_sq (by norm_num)
  have hsqrt25 : Real.sqrt (-2/5 * (-2/5) + 0) = 2/5 := by
    rw [show (-2/5 * (-2/5) + 0 : ℝ) = (2/5)^2 by norm_num]
    exact Real.sqrt_sq (by norm_num)
  have h1 : cosineSim [(1 : ℝ)] [1/15] = 1 := by
    simp only [cosineSim, dotR, List.zipWith_cons_cons, List.zipWith_nil_right,
      List.sum_cons, List.sum_nil, hsqrt225]
    norm_num [Real.sqrt_one]
  have h2 : cosineSim [(-2/5 : ℝ)] [1/15] = -1 := by
    simp only [cosineSim, dotR, List.zipWith_cons_cons, List.zipWith_nil_right,
      List.sum_cons, List.sum_nil, hsqrt225, hsqrt25]
    norm_num
  have hsims : viewSims [(1 : ℝ)] [-2/5] [-2/5] = (1, -1, -1) := by
    simp only [viewSims, hmean, h1, h2]
  refine ⟨by rw [hsims]; norm_num, ?_, ?_⟩
  · have hneg : ¬((0 : ℝ) < (viewSims [(1 : ℝ)] [-2/5] [-2/5]).1 +
        (viewSims [(1 : ℝ)] [-2/5] [-2/5]).2.1 +
        (viewSims [(1 : ℝ)] [-2/5] [-2/5]).2.2) := by
      rw [hsims]; norm_num
    simp only [combine_weights, gt_iff_lt, hneg, if_false]
  · have hneg : ¬((0 : ℝ) < (viewSims [(1 : ℝ)] [-2/5] [-2/5]).1 +
        (viewSims [(1 : ℝ)] [-2/5] [-2/5]).2.1 +
        (viewSims [(1 : ℝ)] [-2/5] [-2/5]).2.2) := by
      rw [hsims]; norm_num
    simp only [combine_weights, gt_iff_lt, hneg, if_false, hsims]
    intro hEq
    have := congrArg Prod.fst hEq
    norm_num at this

/-! ## Result assembler: `output_utils.build_final_result` and
`graphToText_utils.traverse_graph_and_get_literals`

RDF terms are URI references, blank nodes or literals; a graph is a triple
list (the predicate kept as its URI string, which is all the traversal uses).
The tuples `build_final_result` unpacks are heterogeneous Python values,
modelled by `PyVal`; Python exceptions become `Except PyErr`. -/

/-- An rdflib term. -/
inductive RdfTerm where
  | uri (s : String)
  | bnode (s : String)
  | lit (s : String)
deriving DecidableEq, Repr

/-- Python `str(term)` (rdflib terms stringify to their text). -/
def termStr : RdfTerm → String
  | .uri s => s
  | .bnode s => s
  | .lit s => s

/-- A dynamically typed Python value appearing in a match tuple. -/
inductive PyVal where
  | vstr (s : String)
  | vnum (q : ℚ)
  | vnone
  | vterm (t : RdfTerm)
deriving DecidableEq, Repr

/-- Python `str(value)` for the values the assembler stringifies. -/
def pyStr : PyVal → String
  | .vstr s => s
  | .vnum q => toString q
  | .vnone => "None"
  | .vterm t => termStr t

/-- Equality of a Python value with an rdflib term in a triple pattern:
rdflib terms are `str` subclasses, so a plain string equals any term with
the same characters; numbers and `None` match no term. -/
def pyMatchesTerm : PyVal → RdfTerm → Bool
  | .vterm t, u => t == u
  | .vstr s, u => termStr u == s
  | _, _ => false

/-- `urlparse(uri).fragment`: everything after the first `#`. -/
def fragmentOf (s : String) : String :=
  match s.splitOn "#" with
  | [] => ""
  | [_] => ""
  | _ :: rest => String.intercalate "#" rest

/-- Python `uri.split("/")[-1]`. -/
def lastSegment (s : String) : String :=
  ((s.splitOn "/").getLast?).getD ""

/-- `graphToText_utils.get_prefixed_predicate`. -/
def get_prefixed_predicate (uriStr : String) : String :=
  if uriStr.startsWith "http://schema.org/"
      || uriStr.startsWith "https://schema.org/" then
    "schema:" ++ lastSegment uriStr
  else
    let frag := fragmentOf uriStr
    if frag ≠ "" then frag else lastSegment uriStr

/-- `graphToText_utils.WEAK_PREDICATES`. -/
def weakPredicates : List String :=
  ["schema:identifier"]

/-- Update one predicate of one entity's literal dict
(`visited[key][pred] = val`): an existing key is overwritten in place, a new
key appended, matching Python dict insertion order. -/
def setPred (m : List (String × String)) (p v : String) :
    List (String × String) :=
  if (m.lookup p).isSome then
    m.map (fun e => if e.1 = p then (p, v) else e)
  else m ++ [(p, v)]

/-- Set `visited[key][p] = v` in the visited map. -/
def updEntry (visited : List (String × List (String × String)))
    (key p v : String) : List (String × List (String × String)) :=
  visited.map (fun e => if e.1 = key then (key, setPred e.2 p v) else e)

mutual

/-- The inner `traverse(subject, visited)` of
`traverse_graph_and_get_literals`: return unchanged if the subject's string
is already visited, else record it and walk its outgoing triples. The fuel
only bounds the depth of nested node visits; every nested visit records a
new key first, so the fuel supplied by `traverse_graph_and_get_literals`
(more than the number of term strings in the graph) never runs out. -/
def traverseNode (g : List (RdfTerm × String × RdfTerm)) (fuel : Nat)
    (subject : PyVal) (visited : List (String × List (String × String))) :
    List (String × List (String × String)) :=
  match fuel with
  | 0 => visited
  | fuel + 1 =>
      if (visited.lookup (pyStr subject)).isSome then visited
      else
        traverseEdges g fuel (pyStr subject)
          (g.filter (fun tr => pyMatchesTerm subject tr.1))
          (visited ++ [(pyStr subject, [])])
termination_by (fuel, 0)

/-- The `for predicate, obj in graph.predicate_objects(subject)` loop: a
literal object under a non-weak predicate is recorded under the current
subject's key; a URI or blank-node object is traversed recursively; a
literal under a weak predicate is ignored. -/
def traverseEdges (g : List (RdfTerm × String × RdfTerm)) (fuel : Nat)
    (key : String) (edges : List (RdfTerm × String × RdfTerm))
    (visited : List (String × List (String × String))) :
    List (String × List (String × String)) :=
  match edges with
  | [] => visited
  | tr :: rest =>
      let predStr := get_prefixed_predicate tr.2.1
      let visited' :=
        match tr.2.2 with
        | .lit v =>
            if weakPredicates.contains predStr then visited
            else updEntry visited key predStr v
        | o => traverseNode g fuel (.vterm o) visited
      traverseEdges g fuel key rest visited'
termination_by (fuel, edges.length + 1)

end

/-- `graphToText_utils.traverse_graph_and_get_literals`: the literal maps of
the subject and every node reachable from it, keyed by term string. The fuel
`2 * g.length + 2` exceeds the number of distinct term strings the traversal
can ever visit, so the embedding agrees with the (visited-set terminated)
Python recursion. -/
def traverse_graph_and_get_literals
    (g : List (RdfTerm × String × RdfTerm)) (subject : PyVal) :
    List (String × List (String × String)) :=
  traverseNode g (2 * g.length + 2) subject []

/-- The Python exceptions `build_final_result` can raise. -/
inductive PyErr where
  | valueErrorUnpack
  | unboundLocalDuplicationType
  | typeErrorFloat
deriving DecidableEq, Repr

/-- Python `float(x)` on the values reaching it here (numbers convert;
`None`, terms and the non-numeric strings that occur in this pipeline
raise). -/
def pyFloat : PyVal → Except PyErr ℚ
  | .vnum q => .ok q
  | _ => .error .typeErrorFloat

/-- One side's `entityN_details` dict. -/
structure EntityDetails where
  fromGraph : String
  subject : String
  predicates : List (String × String)
deriving DecidableEq, Repr

/-- One element of `build_final_result`'s output list. The similarity score
and average literal similarity are kept as numbers (the source stringifies
them with `str(float(...))` for JSON). -/
structure ResultEntry where
  entity1 : EntityDetails
  entity2 : EntityDetails
  similarityScore : ℚ
  status : Option PyVal
  avgLiteralSimilarity : Option ℚ
  duplicationType : String
deriving DecidableEq, Repr

/-- Insert into an ascending-sorted string list. -/
def insertStr (x : String) : List String → List String
  | [] => [x]
  | y :: ys => if x < y then x :: y :: ys else y :: insertStr x ys

/-- Python `sorted(...)` for strings (ascending). -/
def sortStrings : List String → List String
  | [] => []
  | x :: xs => insertStr x (sortStrings xs)

/-- One side's predicate listing: the predicates of the sorted union that
this entity actually has, each with its value. -/
def entityDetails (gname subj : String)
    (entityPreds : List (String × String)) (allPreds : List String) :
    EntityDetails :=
  ⟨gname, subj,
    (allPreds.filter (fun p => (entityPreds.lookup p).isSome)).map
      (fun p => (p, (entityPreds.lookup p).getD "N/A"))⟩

/-- The body of `build_final_result`'s loop for one element of `matches`.
`dupVar` holds the current value of the Python local `duplication_type`;
the embedding-only branch reads that variable before the iteration assigns
it, so `none` (no earlier iteration assigned it) reproduces the
`UnboundLocalError`. On success the built record is returned together with
the value `duplication_type` holds after the iteration. -/
def processMatch (graph1 graph2 : List (RdfTerm × String × RdfTerm))
    (graph1Name graph2Name : String) (dupVar : Option String)
    (mtch : List PyVal) : Except PyErr (ResultEntry × String) :=
  match mtch with
  | [ent1, ent2, score, avgSim, status, trueDuplicate] => do
      let entity1Literals := traverse_graph_and_get_literals graph1 ent1
      let entity2Literals := traverse_graph_and_get_literals graph2 ent2
      let scoreQ ← pyFloat score
      let entity1Predicates := (entity1Literals.lookup (pyStr ent1)).getD []
      let entity2Predicates := (entity2Literals.lookup (pyStr ent2)).getD []
      let allPredicates := sortStrings
        ((entity1Predicates.map Prod.fst
          ++ entity2Predicates.map Prod.fst).dedup)
      let d1 := entityDetails graph1Name (pyStr ent1) entity1Predicates
        allPredicates
      let d2 := entityDetails graph2Name (pyStr ent2) entity2Predicates
        allPredicates
      if avgSim ≠ PyVal.vnone then do
        let avgQ ← pyFloat avgSim
        let dtype :=
          if trueDuplicate = PyVal.vstr "exact" then "true_duplicate"
          else if (9 : ℚ)/10 ≤ avgQ then "near-exact"
          else if (7 : ℚ)/10 ≤ avgQ then "similar"
          else "conflict"
        return (⟨d1, d2, scoreQ, some status, some avgQ, dtype⟩, dtype)
      else
        match dupVar with
        | none => .error .unboundLocalDuplicationType
        | some prev =>
            let dtype :=
              if prev = "exact" then "true_duplicate"
              else if (9 : ℚ)/10 ≤ scoreQ then "near-exact"
              else if (7 : ℚ)/10 ≤ scoreQ then "similar"
              else "conflict"
            return (⟨d1, d2, scoreQ, none, none, dtype⟩, dtype)
  | _ => .error .valueErrorUnpack

/-- The loop of `build_final_result`, threading the Python local
`duplication_type` across iterations. -/
def buildFinalResultAux (graph1 graph2 : List (RdfTerm × String × RdfTerm))
    (graph1Name graph2Name : String) :
    List (List PyVal) → Option String → List ResultEntry →
      Except PyErr (List ResultEntry)
  | [], _, acc => .ok acc
  | m :: rest, dupVar, acc =>
      match processMatch graph1 graph2 graph1Name graph2Name dupVar m with
      | .error e => .error e
      | .ok (entry, d) =>
          buildFinalResultAux graph1 graph2 graph1Name graph2Name rest
            (some d) (acc ++ [entry])

/-- `output_utils.build_final_result` (source defaults
`graph1_name="phkg_graph"`, `graph2_name="g2"`). -/
def build_final_result (ms : List (List PyVal))
    (graph1 graph2 : List (RdfTerm × String × RdfTerm))
    (graph1Name graph2Name : String) : Except PyErr (List ResultEntry) :=
  buildFinalResultAux graph1 graph2 graph1Name graph2Name ms none []

/-- An adjudicated 5-tuple from `Levenshtein_filter`, as the Python tuple
`build_final_result` would receive. -/
def rowOfAdjudicated (m : String × String × ℚ × ℚ × String) : List PyVal :=
  [.vstr m.1, .vstr m.2.1, .vnum m.2.2.1, .vnum m.2.2.2.1,
    .vstr m.2.2.2.2]

/-- A raw candidate 3-tuple from `match_entities`, as the Python tuple
`build_final_result` would receive. -/
def rowOfCandidate (m : String × String × ℚ) : List PyVal :=
  [.vstr m.1, .vstr m.2.1, .vnum m.2.2]

/-- The duplication-type label of a successful per-match result. -/
def dtypeOf (r : Except PyErr (ResultEntry × String)) : Option String :=
  match r with
  | .ok (e, _) => some e.duplicationType
  | .error _ => none

/-- Whether an assembler result contains a record whose two subjects are
equal. -/
def selfMatched (r : Except PyErr (List ResultEntry)) : Bool :=
  match r with
  | .ok es => es.any (fun e => e.entity1.subject == e.entity2.subject)
  | .error _ => false

theorem processMatch_length_ne_six
    (graph1 graph2 : List (RdfTerm × String × RdfTerm))
    (n1 n2 : String) (dupVar : Option String) (row : List PyVal)
    (h : row.length ≠ 6) :
    processMatch graph1 graph2 n1 n2 dupVar row =
      .error .valueErrorUnpack := by
  rcases row with - | ⟨a, - | ⟨b, - | ⟨c, - | ⟨d, - | ⟨e, - | ⟨f, - | ⟨g, t⟩⟩⟩⟩⟩⟩⟩
  · rfl
  · rfl
  · rfl
  · rfl
  · rfl
  · rfl
  · simp at h
  · rfl

/-- C1: for a match carrying an average literal similarity, the assembler
labels it `true_duplicate` when the externally supplied flag is `'exact'`,
else `near-exact` when the average is ≥ 0.9 (inclusive), else `similar` when
it is ≥ 0.7 (inclusive), else `conflict` — at any position in the match list
(`dupVar` is the loop-carried state) and for any graphs; and on a singleton
list `build_final_result` is exactly this per-match computation. -/
theorem build_final_result_literal_classification
    (graph1 graph2 : List (RdfTerm × String × RdfTerm)) (n1 n2 : String)
    (dupVar : Option String) (ent1 ent2 status trueDup : PyVal)
    (score avgSim : ℚ) (mtch : List PyVal)
    (hrow : mtch = [ent1, ent2, .vnum score, .vnum avgSim, status, trueDup]) :
    (trueDup = PyVal.vstr "exact" →
        dtypeOf (processMatch graph1 graph2 n1 n2 dupVar mtch) =
          some "true_duplicate")
    ∧ (trueDup ≠ PyVal.vstr "exact" → 9/10 ≤ avgSim →
        dtypeOf (processMatch graph1 graph2 n1 n2 dupVar mtch) =
          some "near-exact")
    ∧ (trueDup ≠ PyVal.vstr "exact" → 7/10 ≤ avgSim → avgSim < 9/10 →
        dtypeOf (processMatch graph1 graph2 n1 n2 dupVar mtch) =
          some "similar")
    ∧ (trueDup ≠ PyVal.vstr "exact" → avgSim < 7/10 →
        dtypeOf (processMatch graph1 graph2 n1 n2 dupVar mtch) =
          some "conflict")
    ∧ build_final_result [mtch] graph1 graph2 n1 n2 =
        (processMatch graph1 graph2 n1 n2 none mtch).map (fun p => [p.1]) := by
  subst hrow
  refine ⟨?_, ?_, ?_, ?_, ?_⟩
  · intro htd
    simp [processMatch, pyFloat, dtypeOf, htd, Bind.bind, Except.bind, Pure.pure, Except.pure]
  · intro htd h9
    simp [processMatch, pyFloat, dtypeOf, htd, h9, Bind.bind, Except.bind, Pure.pure, Except.pure]
  · intro htd h7 h9
    simp [processMatch, pyFloat, dtypeOf, htd, h7, not_le.2 h9, Bind.bind,
      Except.bind, Pure.pure, Except.pure]
  · intro htd h7
    have h9 : avgSim < 9/10 := lt_of_lt_of_le h7 (by norm_num)
    simp [processMatch, pyFloat, dtypeOf, htd, not_le.2 h7, Bind.bind,
      Except.bind, Pure.pure, Except.pure, not_le.2 h9]
  · cases hpm : processMatch graph1 graph2 n1 n2 none
        [ent1, ent2, .vnum score, .vnum avgSim, status, trueDup] with
    | error e =>
        simp [build_final_result, buildFinalResultAux, hpm, Except.map]
    | ok p =>
        simp [build_final_result, buildFinalResultAux, hpm, Except.map]

/-- Witness for C1 at the inclusive 0.9 boundary and the `'exact'` flag. -/
theorem build_final_result_literal_classification_witness :
    dtypeOf (processMatch [] [] "phkg_graph" "g2" none
        [PyVal.vterm (.uri "a"), PyVal.vterm (.uri "b"), PyVal.vnum 1,
          PyVal.vnum (9/10), PyVal.vstr "pass", PyVal.vstr "no"]) =
      some "near-exact"
    ∧ dtypeOf (processMatch [] [] "phkg_graph" "g2" none
        [PyVal.vterm (.uri "a"), PyVal.vterm (.uri "b"), PyVal.vnum 1,
          PyVal.vnum (1/2), PyVal.vstr "pass", PyVal.vstr "exact"]) =
      some "true_duplicate" :=
  ⟨(build_final_result_literal_classification [] [] "phkg_graph" "g2" none
      (PyVal.vterm (.uri "a")) (PyVal.vterm (.uri "b")) (PyVal.vstr "pass")
      (PyVal.vstr "no") 1 (9/10) _ rfl).2.1 (by decide)
      (of_decide_eq_true (by with_unfolding_all rfl)),
    (build_final_result_literal_classification [] [] "phkg_graph" "g2" none
      (PyVal.vterm (.uri "a")) (PyVal.vterm (.uri "b")) (PyVal.vstr "pass")
      (PyVal.vstr "exact") 1 (1/2) _ rfl).1 rfl⟩

/-- C2: the failing input — a match list whose first element is an
embedding-only 6-tuple (`avg_literal_similarity` = `None`) makes
`build_final_result` raise `UnboundLocalError` (the embedding-only branch
reads the local `duplication_type` before any iteration has assigned it)
instead of producing the record the spec describes. -/
theorem build_final_result_embedding_only_crash :
    build_final_result
        [[PyVal.vterm (.uri "http://x/a"), PyVal.vterm (.uri "http://x/b"),
          PyVal.vnum 1, PyVal.vnone, PyVal.vnone, PyVal.vnone]] [] []
        "phkg_graph" "g2" = .error .unboundLocalDuplicationType := by
  with_unfolding_all rfl

/-- C10: `build_final_result` unconditionally destructures each match into
exactly six components: a match list headed by a tuple of any other arity —
in particular the 5-tuples `Levenshtein_filter` emits and the 3-tuples
`match_entities` emits — makes the call raise an unpacking `ValueError`
instead of producing records. -/
theorem build_final_result_unpacking
    (graph1 graph2 : List (RdfTerm × String × RdfTerm)) (n1 n2 : String) :
    (∀ (row : List PyVal) (rest : List (List PyVal)), row.length ≠ 6 →
        build_final_result (row :: rest) graph1 graph2 n1 n2 =
          .error .valueErrorUnpack)
    ∧ (∀ m : String × String × ℚ × ℚ × String,
        (rowOfAdjudicated m).length = 5 ∧
          ∀ rest, build_final_result (rowOfAdjudicated m :: rest) graph1
            graph2 n1 n2 = .error .valueErrorUnpack)
    ∧ (∀ m : String × String × ℚ,
        (rowOfCandidate m).length = 3 ∧
          ∀ rest, build_final_result (rowOfCandidate m :: rest) graph1
            graph2 n1 n2 = .error .valueErrorUnpack) := by
  have hmain : ∀ (row : List PyVal) (rest : List (List PyVal)),
      row.length ≠ 6 →
      build_final_result (row :: rest) graph1 graph2 n1 n2 =
        .error .valueErrorUnpack := by
    intro row rest h
    simp [build_final_result, buildFinalResultAux,
      processMatch_length_ne_six graph1 graph2 n1 n2 none row h]
  refine ⟨hmain, fun m => ⟨rfl, fun rest => hmain _ rest (by simp [rowOfAdjudicated])⟩,
    fun m => ⟨rfl, fun rest => hmain _ rest (by simp [rowOfCandidate])⟩⟩

/-- Witness for C10: the assembler rejects a concrete adjudicated 5-tuple
and a concrete raw 3-tuple. -/
theorem build_final_result_unpacking_witness :
    build_final_result [rowOfAdjudicated ("a", "b", 1, 1, "pass")] [] []
        "phkg_graph" "g2" = .error .valueErrorUnpack
    ∧ build_final_result [rowOfCandidate ("a", "b", 1)] [] []
        "phkg_graph" "g2" = .error .valueErrorUnpack :=
  ⟨((build_final_result_unpacking [] [] "phkg_graph" "g2").2.1
      ("a", "b", 1, 1, "pass")).2 [],
    ((build_final_result_unpacking [] [] "phkg_graph" "g2").2.2
      ("a", "b", 1)).2 []⟩

/-- C8 counterexample: when the same identifier occurs in both graphs,
nothing prevents a self-match. The concrete 1×1 similarity matrix over the
shared identifier `"E"` yields the candidate `("E", "E", 1)`; the
adjudicator passes it through (one shared predicate with identical values),
and the assembler happily produces a record whose two subjects are equal. -/
theorem pipeline_self_match_counterexample :
    match_entities [[1]] ["E"] ["E"] (7/10) 2 = [("E", "E", 1)]
    ∧ Levenshtein_filter [("E", "E", 1)] [("E", [("p", "v")])]
        [("E", [("p", "v")])] true (95/100) = [("E", "E", 1, 1, "pass")]
    ∧ selfMatched (build_final_result
        [[PyVal.vterm (.uri "E"), PyVal.vterm (.uri "E"), PyVal.vnum 1,
          PyVal.vnum 1, PyVal.vstr "pass", PyVal.vnone]] [] []
        "phkg_graph" "g2") = true := by
  refine ⟨by with_unfolding_all rfl, by with_unfolding_all rfl,
    by with_unfolding_all rfl⟩

end Dedup
